import Mathlib

/-!
Verification of `cmd/serve.go` of the Higuchi forward-proxy repository.

The file shallowly embeds the `runServe` startup procedure (the version after
the document separator is the current one; the earlier version is embedded
separately with the `Old` suffix), the worker/filter-chain construction it
performs, and the small pure helpers (`authCompare`, listener-address
resolution).  External effects (config reading, pepper decoding, the passwords
file, socket binding, the received signal, `Server.Close`) are supplied by an
explicit environment record, and `runServe` produces a trace of the externally
visible startup events together with its returned error value.
-/

namespace Higuchi

/-- Auth filter section of the configuration (`cfg.Filters.Auth`). -/
structure AuthConfig where
  enabled : Bool
  passwordsFile : String
  pepper : String
deriving DecidableEq

/-- Certbot filter section of the configuration (`cfg.Filters.Certbot`). -/
structure CertbotSection where
  enabled : Bool
  hostname : String
  webroot : String
  challengePath : String
deriving DecidableEq

/-- Forwarded filter section of the configuration (`cfg.Filters.Forwarded`). -/
structure ForwardedSection where
  enabled : Bool
deriving DecidableEq

/-- Healthcheck filter section of the configuration (`cfg.Filters.Healthcheck`). -/
structure HealthcheckSection where
  enabled : Bool
  method : String
  path : String
deriving DecidableEq

/-- The `cfg.Filters` record. -/
structure FiltersSection where
  auth : AuthConfig
  certbot : CertbotSection
  forwarded : ForwardedSection
  healthcheck : HealthcheckSection
deriving DecidableEq

/-- The `cfg.Worker` record.  `bufferSize` is `cfg.Worker.BufferSize` used by
the dispatch and tunnel filters.  `poolCapacity` is Modelled from the spec:
the configuration is said to supply a "worker-pool capacity"; the `config`
package itself is not under `src/`, so the field is taken from the spec's
config description. -/
structure WorkerSection where
  bufferSize : Nat
  poolCapacity : Nat
deriving DecidableEq

/-- The `cfg.Server` record: the listener address list. -/
structure ServerSection where
  listeners : List String
deriving DecidableEq

/-- The `cfg.Logger` record (its `Create()` in the current version cannot fail). -/
structure LoggerSection where
  mode : String
deriving DecidableEq

/-- The configuration record returned by `config.ReadConfig()`. -/
structure Config where
  filters : FiltersSection
  worker : WorkerSection
  server : ServerSection
  logger : LoggerSection
deriving DecidableEq

/-- The kinds of HTTP (nested-chain) filters appended in the pool factory of
`runServe`:  `filter.DefaultForwardedFilter`, `filter.NewCertbotFilter`,
`filter.NewAuthFilter`, `filter.NewTunnelFilter`, `filter.NewForwardFilter`. -/
inductive HTTPFilterKind
  | forwarded
  | certbot
  | auth
  | tunnel
  | forward
deriving DecidableEq

/-- The kinds of top-level filters handed to `worker.New`:
`filter.NewHealthCheckFilter` and `filter.NewParseFilter(hfs...)`; the parse
filter carries its nested HTTP filter chain. -/
inductive FilterKind
  | healthCheck
  | parse (hfs : List HTTPFilterKind)
deriving DecidableEq

/-- The nested HTTP filter chain `hfs` built inside the pool factory of the
current `runServe` (lines 197-212): start from the empty slice, append
Forwarded, Certbot and Auth each under its enable flag, then always append
Tunnel and Forward. -/
def buildHTTPFilters (cfg : Config) : List HTTPFilterKind :=
  let hfs : List HTTPFilterKind := []
  let hfs := if cfg.filters.forwarded.enabled then hfs ++ [HTTPFilterKind.forwarded] else hfs
  let hfs := if cfg.filters.certbot.enabled then hfs ++ [HTTPFilterKind.certbot] else hfs
  let hfs := if cfg.filters.auth.enabled then hfs ++ [HTTPFilterKind.auth] else hfs
  hfs ++ [HTTPFilterKind.tunnel, HTTPFilterKind.forward]

/-- The top-level filter slice `filters` built inside the pool factory of the
current `runServe` (lines 214-221): HealthCheck under its enable flag, then
always the Parse filter wrapping the nested chain. -/
def buildTopFilters (cfg : Config) : List FilterKind :=
  let filters : List FilterKind := []
  let filters := if cfg.filters.healthcheck.enabled
    then filters ++ [FilterKind.healthCheck] else filters
  filters ++ [FilterKind.parse (buildHTTPFilters cfg)]

/-- A worker as far as this file needs it: its pool index and its ordered
top-level filter chain.  Modelled from the spec: the `worker` package is not
under `src/`; the spec says a Worker "owns one ordered top-level FilterChain". -/
structure Worker where
  id : Nat
  filters : List FilterKind
deriving DecidableEq

/-- `worker.New(num, filters...)`. Modelled from the spec: constructs a Worker
owning the given ordered filter chain. -/
def Worker.new (num : Nat) (filters : List FilterKind) : Worker :=
  { id := num, filters := filters }

/-- The pool factory closure passed to `pool.NewPreallocatedPool` in the
current `runServe` (lines 196-222). -/
def workerFactory (cfg : Config) (num : Nat) : Worker :=
  Worker.new num (buildTopFilters cfg)

/-- The nested HTTP filter chain built by the earlier (pre-separator) version
of `runServe` (lines 84-96): no Forwarded stage; Certbot and Auth under their
flags, then Tunnel and Forward. -/
def buildHTTPFiltersOld (cfg : Config) : List HTTPFilterKind :=
  let hfs : List HTTPFilterKind := []
  let hfs := if cfg.filters.certbot.enabled then hfs ++ [HTTPFilterKind.certbot] else hfs
  let hfs := if cfg.filters.auth.enabled then hfs ++ [HTTPFilterKind.auth] else hfs
  hfs ++ [HTTPFilterKind.tunnel, HTTPFilterKind.forward]

/-- The pool factory closure of the earlier version of `runServe` (line 97):
`worker.New(num, filter.NewParseFilter(hfs...))` — a single top-level Parse
filter, no HealthCheck stage. -/
def workerFactoryOld (cfg : Config) (num : Nat) : Worker :=
  Worker.new num [FilterKind.parse (buildHTTPFiltersOld cfg)]

/-- Modelled from the spec: the `pool` package is not under `src/`.  The spec
describes the WorkerPool as "a fixed-capacity array of Worker instances
created once via a factory function indexed 0..N-1; each element is either
idle or bound". -/
structure PreallocatedPool where
  workers : List Worker
  bound : List Bool

/-- Modelled from the spec: `pool.NewPreallocatedPool(factory, n)` eagerly
creates the `n` workers `factory 0 .. factory (n-1)`, all initially idle. -/
def NewPreallocatedPool (factory : Nat → Worker) (n : Nat) : PreallocatedPool :=
  { workers := (List.range n).map factory, bound := List.replicate n false }

/-- The pool's capacity: the number of preallocated workers. -/
def PreallocatedPool.capacity (p : PreallocatedPool) : Nat := p.workers.length

/-- The worker pool constructed by the current `runServe` (line 196-223):
`pool.NewPreallocatedPool(factory, 1024)` with the literal capacity `1024`. -/
def serverPool (cfg : Config) : PreallocatedPool :=
  NewPreallocatedPool (workerFactory cfg) 1024

/-- Claim C1: the nested HTTP chain handed to the Parse filter is, in order,
Forwarded (iff enabled), Certbot (iff enabled), Auth (iff enabled), then
Tunnel, then Forward; Forward is always last with Tunnel immediately before
it. -/
theorem httpChain_order (cfg : Config) :
    buildHTTPFilters cfg =
      (if cfg.filters.forwarded.enabled then [HTTPFilterKind.forwarded] else [])
        ++ (if cfg.filters.certbot.enabled then [HTTPFilterKind.certbot] else [])
        ++ (if cfg.filters.auth.enabled then [HTTPFilterKind.auth] else [])
        ++ [HTTPFilterKind.tunnel, HTTPFilterKind.forward]
    ∧ ∃ pre, buildHTTPFilters cfg = pre ++ [HTTPFilterKind.tunnel, HTTPFilterKind.forward]
        ∧ HTTPFilterKind.tunnel ∉ pre ∧ HTTPFilterKind.forward ∉ pre := by
  constructor
  · cases hF : cfg.filters.forwarded.enabled <;>
      cases hC : cfg.filters.certbot.enabled <;>
      cases hA : cfg.filters.auth.enabled <;>
      simp [buildHTTPFilters, hF, hC, hA]
  · refine ⟨(if cfg.filters.forwarded.enabled then [HTTPFilterKind.forwarded] else [])
        ++ (if cfg.filters.certbot.enabled then [HTTPFilterKind.certbot] else [])
        ++ (if cfg.filters.auth.enabled then [HTTPFilterKind.auth] else []), ?_, ?_, ?_⟩ <;>
      cases hF : cfg.filters.forwarded.enabled <;>
        cases hC : cfg.filters.certbot.enabled <;>
        cases hA : cfg.filters.auth.enabled <;>
        simp [buildHTTPFilters, hF, hC, hA]

/-- Modelled from the spec: `hasher.Argon2Digest` (the `crypto/hasher` package
is not under `src/`).  The spec treats a digest as "verified via a comparison
function"; the code consumes it only through `Compare`, which reports a match
by returning `0`.  The digest is therefore modelled by its comparison
function. -/
structure Argon2Digest where
  compare : String → Int

/-- The dynamic value stored for a user in the `users` map
(`map[string]interface{}` in the code): a plaintext string, an
`hasher.Argon2Digest`, or any other variant (the default case of the type
switch in `authCompare`). -/
inductive StoredSecret
  | str (v : String)
  | argon2 (d : Argon2Digest)
  | other

/-- The `authCompare` closure of `runServe` (lines 164-172): type-switch on
the stored value; a string compares by equality with the supplied password, an
Argon2 digest compares via `Compare(password) == 0`, anything else is a
non-match. -/
def authCompare (password : String) (i : StoredSecret) : Bool :=
  match i with
  | .str v => password == v
  | .argon2 v => v.compare password == 0
  | .other => false

/-- Claim C2: `authCompare p v` returns true iff `v` is a plaintext string
equal to `p`, or `v` is an Argon2 digest whose `Compare p` returns `0`; every
other stored-secret variant yields false. -/
theorem authCompare_correct (p : String) (v : StoredSecret) :
    authCompare p v = true ↔
      v = StoredSecret.str p ∨
        ∃ d, v = StoredSecret.argon2 d ∧ d.compare p = 0 := by
  cases v with
  | str s =>
      simp only [authCompare, beq_iff_eq]
      constructor
      · intro h
        exact Or.inl (by rw [h])
      · rintro (h | ⟨d, h, -⟩)
        · injection h with h2
          exact h2.symm
        · exact StoredSecret.noConfusion h
  | argon2 d => simp [authCompare]
  | other => simp [authCompare]

/-- Modelled from the spec: `acquire` hands out exclusive access to an idle
Worker; here it returns `none` when every worker is bound (the caller blocks),
otherwise it marks the first idle worker bound and returns it with the updated
pool. -/
def PreallocatedPool.acquire (p : PreallocatedPool) : Option (Worker × PreallocatedPool) :=
  match p.bound.findIdx? (fun b => !b) with
  | none => none
  | some i =>
    match p.workers[i]? with
    | none => none
    | some w => some (w, { p with bound := p.bound.set i true })

/-- Modelled from the spec: `release` marks a worker idle again; the worker
array itself is untouched. -/
def PreallocatedPool.release (p : PreallocatedPool) (i : Nat) : PreallocatedPool :=
  { p with bound := p.bound.set i false }

/-- A freshly constructed preallocated pool holds exactly `n` workers. -/
theorem NewPreallocatedPool_capacity (f : Nat → Worker) (n : Nat) :
    (NewPreallocatedPool f n).capacity = n := by
  unfold NewPreallocatedPool PreallocatedPool.capacity
  rw [List.length_map, List.length_range]

/-- Every worker of a freshly constructed pool is a value of the factory. -/
theorem NewPreallocatedPool_workers_mem (f : Nat → Worker) (n : Nat) (w : Worker)
    (hw : w ∈ (NewPreallocatedPool f n).workers) : ∃ i, w = f i := by
  unfold NewPreallocatedPool at hw
  simp only [List.mem_map] at hw
  obtain ⟨i, -, rfl⟩ := hw
  exact ⟨i, rfl⟩

/-- The factory value at any index below the capacity is a worker of the pool. -/
theorem NewPreallocatedPool_mem_workers (f : Nat → Worker) (n i : Nat) (hi : i < n) :
    f i ∈ (NewPreallocatedPool f n).workers := by
  unfold NewPreallocatedPool
  exact List.mem_map_of_mem f (List.mem_range.mpr hi)

/-- Claim C3 (amended): the pool built by `runServe` always has capacity
`1024` — the literal passed to `pool.NewPreallocatedPool` — regardless of the
configuration, and neither `acquire` nor `release` changes the capacity. -/
theorem pool_capacity_fixed (cfg : Config) :
    (serverPool cfg).capacity = 1024
    ∧ (∀ p w p2, PreallocatedPool.acquire p = some (w, p2) →
        p2.capacity = p.capacity)
    ∧ (∀ p i, (PreallocatedPool.release p i).capacity = p.capacity) := by
  refine ⟨?_, ?_, ?_⟩
  · unfold serverPool
    rw [NewPreallocatedPool_capacity]
  · intro p w p2 h
    unfold PreallocatedPool.acquire at h
    split at h
    · exact absurd h (by simp)
    · split at h
      · exact absurd h (by simp)
      · simp only [Option.some.injEq, Prod.mk.injEq] at h
        rw [← h.2]
        rfl
  · intro p i
    rfl

/-- A configuration whose spec-modelled worker-pool capacity field is 5. -/
def cfgPool : Config :=
  { filters :=
      { auth := { enabled := false, passwordsFile := "", pepper := "" }
        certbot := { enabled := false, hostname := "", webroot := "", challengePath := "" }
        forwarded := { enabled := false }
        healthcheck := { enabled := false, method := "", path := "" } }
    worker := { bufferSize := 4096, poolCapacity := 5 }
    server := { listeners := [] }
    logger := { mode := "development" } }

/-- Claim C3 (counterexample): the pool constructed by `runServe` does not get
the capacity supplied in the configuration — with a configured worker-pool
capacity of 5 the pool still holds 1024 workers. -/
theorem pool_capacity_counterexample :
    (serverPool cfgPool).capacity ≠ cfgPool.worker.poolCapacity := by
  unfold serverPool
  rw [NewPreallocatedPool_capacity]
  decide

/-- Claim C3 (witness): the amended theorem applied at `cfgPool`, with the
`acquire` implication discharged on a concrete two-worker pool. -/
theorem pool_capacity_fixed_witness :
    (serverPool cfgPool).capacity = 1024
    ∧ ({ workers := (List.range 2).map (workerFactory cfgPool)
         bound := [true, false] } : PreallocatedPool).capacity
        = (NewPreallocatedPool (workerFactory cfgPool) 2).capacity
    ∧ (PreallocatedPool.release (NewPreallocatedPool (workerFactory cfgPool) 2) 0).capacity
        = (NewPreallocatedPool (workerFactory cfgPool) 2).capacity := by
  refine ⟨(pool_capacity_fixed cfgPool).1, ?_, ?_⟩
  · exact (pool_capacity_fixed cfgPool).2.1 (NewPreallocatedPool (workerFactory cfgPool) 2)
      (workerFactory cfgPool 0) _ (by rfl)
  · exact (pool_capacity_fixed cfgPool).2.2 (NewPreallocatedPool (workerFactory cfgPool) 2) 0

/-- Claim C4: every worker's top-level chain is `[HealthCheck, Parse]` when
the health-check filter is enabled and `[Parse]` when it is disabled, and
every worker of the constructed pool carries exactly this chain. -/
theorem topChain_correct (cfg : Config) (num : Nat) :
    (workerFactory cfg num).filters =
      (if cfg.filters.healthcheck.enabled
        then [FilterKind.healthCheck, FilterKind.parse (buildHTTPFilters cfg)]
        else [FilterKind.parse (buildHTTPFilters cfg)])
    ∧ ∀ w ∈ (serverPool cfg).workers, w.filters = buildTopFilters cfg := by
  constructor
  · cases hH : cfg.filters.healthcheck.enabled <;>
      simp [workerFactory, Worker.new, buildTopFilters, hH]
  · intro w hw
    unfold serverPool at hw
    obtain ⟨i, rfl⟩ := NewPreallocatedPool_workers_mem _ _ _ hw
    rfl

/-- Claim C4 (witness): the chain shape theorem applied at `cfgPool`, the pool
membership discharged for worker 5 of the constructed pool. -/
theorem topChain_correct_witness :
    (workerFactory cfgPool 5).filters = [FilterKind.parse (buildHTTPFilters cfgPool)]
    ∧ (workerFactory cfgPool 5).filters = buildTopFilters cfgPool := by
  have h := topChain_correct cfgPool 5
  have h1 : (workerFactory cfgPool 5).filters = [FilterKind.parse (buildHTTPFilters cfgPool)] := by
    have hh := h.1
    rwa [if_neg (by decide)] at hh
  refine ⟨h1, h.2 (workerFactory cfgPool 5) ?_⟩
  show workerFactory cfgPool 5 ∈ (serverPool cfgPool).workers
  unfold serverPool
  exact NewPreallocatedPool_mem_workers (workerFactory cfgPool) 1024 5 (by decide)

/-- A configuration with the Forwarded filter enabled and everything else
disabled. -/
def cfgForwarded : Config :=
  { filters :=
      { auth := { enabled := false, passwordsFile := "", pepper := "" }
        certbot := { enabled := false, hostname := "", webroot := "", challengePath := "" }
        forwarded := { enabled := true }
        healthcheck := { enabled := false, method := "", path := "" } }
    worker := { bufferSize := 4096, poolCapacity := 1024 }
    server := { listeners := [] }
    logger := { mode := "development" } }

/-- A configuration with the HealthCheck filter enabled and everything else
disabled. -/
def cfgHealth : Config :=
  { filters :=
      { auth := { enabled := false, passwordsFile := "", pepper := "" }
        certbot := { enabled := false, hostname := "", webroot := "", challengePath := "" }
        forwarded := { enabled := false }
        healthcheck := { enabled := true, method := "GET", path := "/healthz" } }
    worker := { bufferSize := 4096, poolCapacity := 1024 }
    server := { listeners := [] }
    logger := { mode := "development" } }

/-- Claim C8 (counterexample): with the Forwarded filter enabled the current
version of `runServe` builds a worker chain containing a Forwarded stage while
the earlier version does not, and with the HealthCheck filter enabled the
current version adds a top-level HealthCheck stage the earlier version lacks;
so the two versions do not construct the same sequence of filter kinds for
every configuration. -/
theorem versions_chain_counterexample :
    (workerFactory cfgForwarded 0).filters ≠ (workerFactoryOld cfgForwarded 0).filters
    ∧ (workerFactory cfgHealth 0).filters ≠ (workerFactoryOld cfgHealth 0).filters := by
  constructor
  · decide
  · decide

/-- Claim C8 (amended): for every configuration in which the Forwarded and
HealthCheck filters are both disabled, the two versions of `runServe` build
workers with the same sequence of filter kinds. -/
theorem versions_chain_agree (cfg : Config) (num : Nat)
    (hf : cfg.filters.forwarded.enabled = false)
    (hh : cfg.filters.healthcheck.enabled = false) :
    (workerFactory cfg num).filters = (workerFactoryOld cfg num).filters := by
  simp [workerFactory, workerFactoryOld, Worker.new, buildTopFilters,
    buildHTTPFilters, buildHTTPFiltersOld, hf, hh]

/-- Claim C8 (witness): the agreement theorem applied to a concrete
configuration with Forwarded and HealthCheck disabled. -/
theorem versions_chain_agree_witness :
    (workerFactory cfgPool 0).filters = (workerFactoryOld cfgPool 0).filters :=
  versions_chain_agree cfgPool 0 (by decide) (by decide)

/-- The `unix:` listener-address marker (the `unixAddressPrefix` constant of
the source). -/
def unixAddressPref : String := "unix:"

/-- `len(unixAddressPrefix)` (the `unixAddressPrefixLength` variable). -/
def unixAddressPrefLength : Nat := unixAddressPref.length

/-- `strings.HasPrefix p s`: `s` begins with the characters of `p`.  Embedded
as the character-list test on `String.data`; the marker is ASCII, so the
byte-level test of the Go library and the character-level test coincide. -/
def hasPref (p s : String) : Bool := p.data.isPrefixOf s.data

/-- The per-address listener resolution of `runServe` (lines 227-231):
addresses carrying the `unix:` marker listen on the `unix` network with the
marker stripped, every other address listens on `tcp` unchanged.  Returns
`(network, address)`. -/
def resolveListener (addr : String) : String × String :=
  if hasPref unixAddressPref addr
  then ("unix", addr.drop unixAddressPrefLength)
  else ("tcp", addr)

/-- The two signals forwarded to `runServe`'s channel by `signal.Notify`:
`os.Interrupt` and `syscall.SIGTERM`. -/
inductive Signal
  | interrupt
  | sigterm
deriving DecidableEq

/-- Externally visible events of one `runServe` execution, in order. -/
inductive Event
  | configRead
  | loggerCreated
  | pepperDecoded
  | passwordsFileRead
  | poolConstructed (capacity : Nat)
  | listened (network : String) (addr : String)
  | signalReceived (sig : Signal)
  | closeInvoked
deriving DecidableEq

/-- The environment supplying the outcomes of `runServe`'s external calls:
`config.ReadConfig()`, `cfg.Filters.Auth.Pepper()`,
`aa.ReadPasswordsFile(...)`, `s.Listen(network, addr)`, the signal eventually
delivered to the channel, and the result of `s.Close()` (`none` meaning a nil
error). -/
structure Env where
  readConfig : Except String Config
  pepperResult : Except String (List Nat)
  passwordsFileResult : Except String (List (String × StoredSecret))
  listen : String → String → Except String Unit
  receivedSignal : Signal
  closeResult : Option String

/-- The observable result of one `runServe` execution: its event trace, the
final contents of the `users` credential table, and the returned error
(`none` for a nil error). -/
structure RunResult where
  trace : List Event
  users : List (String × StoredSecret)
  ret : Option String

/-- The listener loop of `runServe` (lines 226-236): resolve each address,
bind it, log it; the first bind failure returns that error at once. -/
def listenLoop (listenF : String → String → Except String Unit) :
    List String → List Event × Option String
  | [] => ([], none)
  | addr :: rest =>
    let p := resolveListener addr
    match listenF p.1 p.2 with
    | .error e => ([], some e)
    | .ok _ =>
      let r := listenLoop listenF rest
      (Event.listened p.1 p.2 :: r.1, r.2)

/-- The tail of `runServe` after the credential table is settled (lines
194-243): construct the server with its `1024`-worker pool, run the listener
loop (a bind failure returns its error), then block on the signal channel and
finally return `s.Close()`. -/
def serveListen (env : Env) (cfg : Config) (tr : List Event)
    (users : List (String × StoredSecret)) : RunResult :=
  let tr2 := tr ++ [Event.poolConstructed 1024]
  let lr := listenLoop env.listen cfg.server.listeners
  match lr.2 with
  | some e => { trace := tr2 ++ lr.1, users := users, ret := some e }
  | none =>
      { trace := tr2 ++ lr.1 ++ [Event.signalReceived env.receivedSignal, Event.closeInvoked]
        users := users
        ret := env.closeResult }

/-- The current `runServe` (lines 151-244): read the configuration, create
the logger, decode the pepper, read the passwords file when the Auth filter
is enabled, then serve (`serveListen`).  Each failing step returns its
wrapped error immediately. -/
def runServe (env : Env) : RunResult :=
  match env.readConfig with
  | .error e =>
      { trace := [], users := [], ret := some ("error while reading config: " ++ e) }
  | .ok cfg =>
    match env.pepperResult with
    | .error e =>
        { trace := [Event.configRead, Event.loggerCreated]
          users := []
          ret := some ("error while decoding pepper: " ++ e) }
    | .ok _ =>
      if cfg.filters.auth.enabled then
        match env.passwordsFileResult with
        | .error e =>
            { trace := [Event.configRead, Event.loggerCreated, Event.pepperDecoded]
              users := []
              ret := some ("error while reading passwords file: " ++ e) }
        | .ok au =>
            serveListen env cfg
              [Event.configRead, Event.loggerCreated, Event.pepperDecoded,
                Event.passwordsFileRead] au
      else
        serveListen env cfg
          [Event.configRead, Event.loggerCreated, Event.pepperDecoded] []

/-- Whether an `Except` result is an error. -/
def isErr {ε α : Type} (x : Except ε α) : Bool :=
  match x with
  | .error _ => true
  | .ok _ => false

/-- The events marking that `runServe` entered its serving phase: receiving
the stop signal or invoking `Server.Close`. -/
def isServingEvent (e : Event) : Bool :=
  match e with
  | .signalReceived _ => true
  | .closeInvoked => true
  | _ => false

/-- `runServe` aborted before serving: it returned an error and its trace has
no signal receipt and no close invocation. -/
def abortedBeforeServing (r : RunResult) : Bool :=
  r.ret.isSome && !(r.trace.any isServingEvent)

/-- The startup-fatal situations of claim C5: the configuration is unreadable,
or the Auth filter is enabled and the passwords file is unreadable, or some
configured listener fails to bind. -/
def startupFatalCond (env : Env) : Bool :=
  match env.readConfig with
  | .error _ => true
  | .ok cfg =>
    (cfg.filters.auth.enabled && isErr env.passwordsFileResult)
      || (listenLoop env.listen cfg.server.listeners).2.isSome

/-- Startup succeeded: the configuration was read, the pepper decoded, the
passwords file read whenever Auth is enabled, and every listener bound. -/
def startupOk (env : Env) : Bool :=
  match env.readConfig with
  | .error _ => false
  | .ok cfg =>
    !(isErr env.pepperResult)
      && (!cfg.filters.auth.enabled || !(isErr env.passwordsFileResult))
      && !((listenLoop env.listen cfg.server.listeners).2.isSome)

/-- Dropping the marker's length from `"unix:" ++ rest` leaves `rest`. -/
theorem drop_unix_marker (rest : String) :
    ("unix:" ++ rest).drop unixAddressPrefLength = rest := by
  apply String.ext
  simp only [String.data_drop, String.data_append]
  exact List.drop_left' rfl

/-- The marker test accepts every address that carries the marker. -/
theorem hasPref_unix_append (rest : String) :
    hasPref unixAddressPref ("unix:" ++ rest) = true := by
  simp [hasPref, unixAddressPref]

/-- Every event recorded by the listener loop is a `listened` event. -/
theorem listenLoop_events (listenF : String → String → Except String Unit) :
    ∀ addrs : List String, ∀ e ∈ (listenLoop listenF addrs).1,
      ∃ n a, e = Event.listened n a
  | [] => by
      intro e he
      simp [listenLoop] at he
  | addr :: rest => by
      intro e he
      simp only [listenLoop] at he
      cases hl : listenF (resolveListener addr).1 (resolveListener addr).2 with
      | error e2 =>
          simp only [hl] at he
          simp at he
      | ok u =>
          simp only [hl, List.mem_cons] at he
          rcases he with rfl | he
          · exact ⟨_, _, rfl⟩
          · exact listenLoop_events listenF rest e he

/-- When the listener loop reports no error, its trace lists exactly the
resolved `(network, address)` pairs, in configuration order. -/
theorem listenLoop_trace_of_ok (listenF : String → String → Except String Unit) :
    ∀ addrs : List String, (listenLoop listenF addrs).2 = none →
      (listenLoop listenF addrs).1
        = addrs.map (fun a => Event.listened (resolveListener a).1 (resolveListener a).2)
  | [] => fun _ => rfl
  | addr :: rest => by
      intro h
      simp only [listenLoop] at h ⊢
      cases hl : listenF (resolveListener addr).1 (resolveListener addr).2 with
      | error e =>
          simp only [hl] at h
          simp at h
      | ok u =>
          simp only [hl] at h ⊢
          simp only [List.map_cons, List.cons.injEq, true_and]
          exact listenLoop_trace_of_ok listenF rest h

/-- Claim C6: an address carrying the `unix:` marker is listened on with
network `unix` and the marker stripped; any other address with network `tcp`
unmodified; and a fully successful listener loop records exactly these
resolved pairs. -/
theorem listener_resolution_correct :
    (∀ rest : String, resolveListener ("unix:" ++ rest) = ("unix", rest))
    ∧ (∀ addr : String, hasPref unixAddressPref addr = false →
        resolveListener addr = ("tcp", addr))
    ∧ (∀ (listenF : String → String → Except String Unit) (addrs : List String),
        (listenLoop listenF addrs).2 = none →
        (listenLoop listenF addrs).1
          = addrs.map (fun a => Event.listened (resolveListener a).1 (resolveListener a).2)) := by
  refine ⟨?_, ?_, ?_⟩
  · intro rest
    simp [resolveListener, hasPref_unix_append, drop_unix_marker]
  · intro addr h
    simp [resolveListener, h]
  · exact listenLoop_trace_of_ok

/-- Claim C6 (witness): the resolution theorem applied to one marked and one
plain address, and to a two-address listener loop that binds successfully. -/
theorem listener_resolution_correct_witness :
    resolveListener ("unix:" ++ "/tmp/higuchi.sock") = ("unix", "/tmp/higuchi.sock")
    ∧ resolveListener "0.0.0.0:8080" = ("tcp", "0.0.0.0:8080")
    ∧ (listenLoop (fun _ _ => Except.ok ()) ["0.0.0.0:8080", "unix:/tmp/higuchi.sock"]).1
        = [Event.listened "tcp" "0.0.0.0:8080", Event.listened "unix" "/tmp/higuchi.sock"] := by
  refine ⟨listener_resolution_correct.1 "/tmp/higuchi.sock",
    listener_resolution_correct.2.1 "0.0.0.0:8080" (by decide), ?_⟩
  rw [listener_resolution_correct.2.2 (fun _ _ => Except.ok ())
    ["0.0.0.0:8080", "unix:/tmp/higuchi.sock"] (by rfl)]
  decide

/-- Every event of the startup part of a serving trace is either one of the
pre-listen events, the pool construction, or a `listened` event. -/
theorem startup_trace_mem (env : Env) (cfg : Config) (tr : List Event) (e : Event)
    (he : e ∈ (tr ++ [Event.poolConstructed 1024])
        ++ (listenLoop env.listen cfg.server.listeners).1) :
    e ∈ tr ∨ e = Event.poolConstructed 1024 ∨ ∃ n a, e = Event.listened n a := by
  rcases List.mem_append.mp he with he | he
  · rcases List.mem_append.mp he with he | he
    · exact Or.inl he
    · simp only [List.mem_singleton] at he
      exact Or.inr (Or.inl he)
  · exact Or.inr (Or.inr (listenLoop_events env.listen cfg.server.listeners e he))

/-- Reduction of `serveListen` when some bind fails. -/
theorem serveListen_abort (env : Env) (cfg : Config) (tr : List Event)
    (users : List (String × StoredSecret)) (e : String)
    (hl : (listenLoop env.listen cfg.server.listeners).2 = some e) :
    serveListen env cfg tr users
      = { trace := (tr ++ [Event.poolConstructed 1024])
            ++ (listenLoop env.listen cfg.server.listeners).1
          users := users
          ret := some e } := by
  simp only [serveListen, hl]

/-- Reduction of `serveListen` when every bind succeeds. -/
theorem serveListen_serve (env : Env) (cfg : Config) (tr : List Event)
    (users : List (String × StoredSecret))
    (hl : (listenLoop env.listen cfg.server.listeners).2 = none) :
    serveListen env cfg tr users
      = { trace := ((tr ++ [Event.poolConstructed 1024])
            ++ (listenLoop env.listen cfg.server.listeners).1)
            ++ [Event.signalReceived env.receivedSignal, Event.closeInvoked]
          users := users
          ret := env.closeResult } := by
  simp only [serveListen, hl]

/-- A `serveListen` run whose listener loop fails aborts before serving. -/
theorem serveListen_abort_aborted (env : Env) (cfg : Config) (tr : List Event)
    (users : List (String × StoredSecret))
    (htr : ∀ e2 ∈ tr, isServingEvent e2 = false)
    (hl : (listenLoop env.listen cfg.server.listeners).2.isSome = true) :
    abortedBeforeServing (serveListen env cfg tr users) = true := by
  obtain ⟨e, he⟩ := Option.isSome_iff_exists.mp hl
  rw [serveListen_abort env cfg tr users e he]
  unfold abortedBeforeServing
  simp only [Option.isSome_some, Bool.true_and, Bool.not_eq_true']
  rw [List.any_eq_false]
  intro x hx
  rcases startup_trace_mem env cfg tr x hx with hx | hx | ⟨n, a, hx⟩
  · simp [htr x hx]
  · rw [hx]
    simp [isServingEvent]
  · rw [hx]
    simp [isServingEvent]

/-- Claim C5: `runServe` returns an error and never reaches the signal-wait
or close phase whenever reading the configuration fails, whenever the
passwords file is unreadable with Auth enabled, or whenever binding some
configured listener fails. -/
theorem startup_fatal_aborts (env : Env) (h : startupFatalCond env = true) :
    abortedBeforeServing (runServe env) = true := by
  cases hc : env.readConfig with
  | error e => simp [runServe, hc, abortedBeforeServing]
  | ok cfg =>
    simp only [startupFatalCond, hc] at h
    cases hp : env.pepperResult with
    | error e => simp [runServe, hc, hp, abortedBeforeServing, isServingEvent]
    | ok pepper =>
      cases hA : cfg.filters.auth.enabled with
      | true =>
          cases hpf : env.passwordsFileResult with
          | error e =>
              simp [runServe, hc, hp, hA, hpf, abortedBeforeServing, isServingEvent]
          | ok au =>
              simp only [hA, hpf, isErr, Bool.and_false, Bool.false_or] at h
              simp only [runServe, hc, hp, hA, hpf, if_true]
              exact serveListen_abort_aborted env cfg _ au (by decide) h
      | false =>
          simp only [hA, Bool.false_and, Bool.false_or] at h
          simp only [runServe, hc, hp, hA, Bool.false_eq_true, if_false]
          exact serveListen_abort_aborted env cfg _ [] (by decide) h

/-- An environment whose configuration read fails. -/
def envConfigFail : Env :=
  { readConfig := Except.error "no config file"
    pepperResult := Except.ok []
    passwordsFileResult := Except.ok []
    listen := fun _ _ => Except.ok ()
    receivedSignal := Signal.interrupt
    closeResult := none }

/-- Claim C5 (witness): the abort theorem applied to an environment whose
configuration read fails. -/
theorem startup_fatal_aborts_witness :
    abortedBeforeServing (runServe envConfigFail) = true :=
  startup_fatal_aborts envConfigFail (by rfl)

/-- Claim C7: once startup succeeds, `runServe`'s trace is a startup part
containing no signal receipt and no close invocation, followed by exactly the
receipt of the delivered signal — necessarily an interrupt or termination
signal — and then the single close invocation, and `runServe` returns the
result of `Server.Close`. -/
theorem serve_until_signal (env : Env) (h : startupOk env = true) :
    (env.receivedSignal = Signal.interrupt ∨ env.receivedSignal = Signal.sigterm)
    ∧ ∃ pre, (runServe env).trace
          = pre ++ [Event.signalReceived env.receivedSignal, Event.closeInvoked]
        ∧ (∀ e ∈ pre, isServingEvent e = false)
        ∧ (runServe env).ret = env.closeResult := by
  refine ⟨?_, ?_⟩
  · cases env.receivedSignal
    · exact Or.inl rfl
    · exact Or.inr rfl
  · cases hc : env.readConfig with
    | error e =>
        simp only [startupOk, hc] at h
        exact absurd h (by decide)
    | ok cfg =>
      simp only [startupOk, hc] at h
      cases hp : env.pepperResult with
      | error e =>
          rw [hp] at h
          simp [isErr] at h
      | ok pepper =>
        cases hlo : (listenLoop env.listen cfg.server.listeners).2 with
        | some e =>
            rw [hp, hlo] at h
            simp [isErr] at h
        | none =>
          cases hA : cfg.filters.auth.enabled with
          | true =>
              cases hpf : env.passwordsFileResult with
              | error e =>
                  rw [hp, hA, hpf] at h
                  simp [isErr] at h
              | ok au =>
                  simp only [runServe, hc, hp, hA, hpf, if_true]
                  rw [serveListen_serve env cfg _ au hlo]
                  refine ⟨_, rfl, ?_, rfl⟩
                  intro e he
                  rcases startup_trace_mem env cfg _ e he with he | he | ⟨n, a, he⟩
                  · exact (by decide : ∀ x ∈ [Event.configRead, Event.loggerCreated,
                      Event.pepperDecoded, Event.passwordsFileRead],
                        isServingEvent x = false) e he
                  · rw [he]
                    rfl
                  · rw [he]
                    rfl
          | false =>
              simp only [runServe, hc, hp, hA, Bool.false_eq_true, if_false]
              rw [serveListen_serve env cfg _ [] hlo]
              refine ⟨_, rfl, ?_, rfl⟩
              intro e he
              rcases startup_trace_mem env cfg _ e he with he | he | ⟨n, a, he⟩
              · exact (by decide : ∀ x ∈ [Event.configRead, Event.loggerCreated,
                  Event.pepperDecoded], isServingEvent x = false) e he
              · rw [he]
                rfl
              · rw [he]
                rfl

/-- A configuration with every filter disabled and two listeners, one TCP and
one with the `unix:` marker. -/
def cfgServe : Config :=
  { filters :=
      { auth := { enabled := false, passwordsFile := "", pepper := "" }
        certbot := { enabled := false, hostname := "", webroot := "", challengePath := "" }
        forwarded := { enabled := false }
        healthcheck := { enabled := false, method := "", path := "" } }
    worker := { bufferSize := 4096, poolCapacity := 1024 }
    server := { listeners := ["127.0.0.1:8080", "unix:/tmp/higuchi.sock"] }
    logger := { mode := "development" } }

/-- An environment in which startup fully succeeds and a termination signal
is eventually delivered. -/
def envServe : Env :=
  { readConfig := Except.ok cfgServe
    pepperResult := Except.ok []
    passwordsFileResult := Except.ok []
    listen := fun _ _ => Except.ok ()
    receivedSignal := Signal.sigterm
    closeResult := none }

/-- Claim C7 (witness): the serving theorem applied to `envServe`. -/
theorem serve_until_signal_witness :
    (envServe.receivedSignal = Signal.interrupt ∨ envServe.receivedSignal = Signal.sigterm)
    ∧ ∃ pre, (runServe envServe).trace
          = pre ++ [Event.signalReceived envServe.receivedSignal, Event.closeInvoked]
        ∧ (∀ e ∈ pre, isServingEvent e = false)
        ∧ (runServe envServe).ret = envServe.closeResult :=
  serve_until_signal envServe (by rfl)

/-- Claim C9: the pepper is decoded before the Auth enable flag is consulted,
so a pepper-decoding failure makes `runServe` return the wrapped pepper error
with nothing after logger creation in its trace — whatever the Auth flag is,
in particular when Auth is disabled. -/
theorem pepper_failure_aborts (env : Env) (cfg : Config) (e : String)
    (hc : env.readConfig = Except.ok cfg)
    (hp : env.pepperResult = Except.error e) :
    runServe env
      = { trace := [Event.configRead, Event.loggerCreated]
          users := []
          ret := some ("error while decoding pepper: " ++ e) }
    ∧ abortedBeforeServing (runServe env) = true := by
  have h1 : runServe env
      = { trace := [Event.configRead, Event.loggerCreated]
          users := []
          ret := some ("error while decoding pepper: " ++ e) } := by
    simp only [runServe, hc, hp]
  refine ⟨h1, ?_⟩
  rw [h1]
  rfl

/-- An environment with Auth disabled whose pepper decoding fails. -/
def envPepperFail : Env :=
  { readConfig := Except.ok cfgServe
    pepperResult := Except.error "illegal base64 data"
    passwordsFileResult := Except.ok []
    listen := fun _ _ => Except.ok ()
    receivedSignal := Signal.interrupt
    closeResult := none }

/-- Claim C9 (witness): the pepper-failure theorem applied to an environment
whose configuration has the Auth filter disabled. -/
theorem pepper_failure_aborts_witness :
    runServe envPepperFail
      = { trace := [Event.configRead, Event.loggerCreated]
          users := []
          ret := some ("error while decoding pepper: " ++ "illegal base64 data") }
    ∧ abortedBeforeServing (runServe envPepperFail) = true :=
  pepper_failure_aborts envPepperFail cfgServe "illegal base64 data" (by rfl) (by rfl)

/-- Claim C10: with the Auth filter disabled, `runServe` never reads the
passwords file, leaves the credential table empty, places no Auth filter in
the nested chain, and its entire behavior is independent of the passwords
file's readability. -/
theorem auth_disabled_no_passwords (env : Env) (cfg : Config)
    (hc : env.readConfig = Except.ok cfg)
    (ha : cfg.filters.auth.enabled = false) :
    Event.passwordsFileRead ∉ (runServe env).trace
    ∧ (runServe env).users = []
    ∧ HTTPFilterKind.auth ∉ buildHTTPFilters cfg
    ∧ ∀ pf, runServe { env with passwordsFileResult := pf } = runServe env := by
  refine ⟨?_, ?_, ?_, ?_⟩
  · cases hp : env.pepperResult with
    | error e =>
        simp only [runServe, hc, hp]
        decide
    | ok pepper =>
      simp only [runServe, hc, hp, ha, Bool.false_eq_true, if_false]
      cases hlo : (listenLoop env.listen cfg.server.listeners).2 with
      | some e =>
          rw [serveListen_abort env cfg _ [] e hlo]
          intro hmem
          rcases startup_trace_mem env cfg _ _ hmem with hmem | hmem | ⟨n, a, hmem⟩
          · simp at hmem
          · exact Event.noConfusion hmem
          · exact Event.noConfusion hmem
      | none =>
          rw [serveListen_serve env cfg _ [] hlo]
          intro hmem
          rcases List.mem_append.mp hmem with hmem | hmem
          · rcases startup_trace_mem env cfg _ _ hmem with hmem | hmem | ⟨n, a, hmem⟩
            · simp at hmem
            · exact Event.noConfusion hmem
            · exact Event.noConfusion hmem
          · simp only [List.mem_cons, List.mem_singleton] at hmem
            rcases hmem with hmem | hmem | hmem
            · exact Event.noConfusion hmem
            · exact Event.noConfusion hmem
            · simp at hmem
  · cases hp : env.pepperResult with
    | error e => simp only [runServe, hc, hp]
    | ok pepper =>
      simp only [runServe, hc, hp, ha, Bool.false_eq_true, if_false]
      cases hlo : (listenLoop env.listen cfg.server.listeners).2 with
      | some e => rw [serveListen_abort env cfg _ [] e hlo]
      | none => rw [serveListen_serve env cfg _ [] hlo]
  · cases hF : cfg.filters.forwarded.enabled <;>
      cases hC : cfg.filters.certbot.enabled <;>
      simp [buildHTTPFilters, ha, hF, hC]
  · intro pf
    simp only [runServe, serveListen, hc, ha, Bool.false_eq_true, if_false]

/-- Claim C10 (witness): the theorem applied to `envServe`, whose
configuration has the Auth filter disabled. -/
theorem auth_disabled_no_passwords_witness :
    Event.passwordsFileRead ∉ (runServe envServe).trace
    ∧ (runServe envServe).users = []
    ∧ HTTPFilterKind.auth ∉ buildHTTPFilters cfgServe
    ∧ ∀ pf, runServe { envServe with passwordsFileResult := pf } = runServe envServe :=
  auth_disabled_no_passwords envServe cfgServe (by rfl) (by rfl)

end Higuchi
